import Mathlib

/-!
Verification of the elliptics node I/O core (library/pool.c) against its
natural-language specification.  The C code is shallowly embedded: pure
fragments become Lean functions, mutable structures become explicit records
that the functions transform, environment effects (the kernel recv/send
calls, the random generator, thread creation) become explicit oracles passed
as arguments.  Machine counters are modelled as Nat since none of the claims
depends on wrap-around behaviour.
-/

namespace Elliptics

/-! Errno constants as defined by Linux, used by pool.c through errno.h. -/

def EAGAIN : Int := 11
def EWOULDBLOCK : Int := 11
def ENOMEM : Int := 12
def EMFILE : Int := 24
def ECONNABORTED : Int := 103
def ECONNRESET : Int := 104
def ENOBUFS : Int := 105

/-! Command flags.  In C these are bits of the cmd flags word; the bit values
live in packet.h which is outside the given sources, so each flag test
becomes a Boolean field. -/

structure DnetFlags where
  reply : Bool
  more : Bool
  destroy : Bool
  nolock : Bool
  direct_backend : Bool
  trace_bit : Bool
deriving DecidableEq, Repr

/-! Command opcodes.  The ten constructors named here are exactly the case
labels of the switch in dnet_cmd_needs_backend; every other opcode falls
into the default arm and is represented by the catch-all constructor. -/

inductive DnetCommand where
  | AUTH
  | STATUS
  | REVERSE_LOOKUP
  | JOIN
  | ROUTE_LIST
  | MONITOR_STAT
  | BACKEND_CONTROL
  | BACKEND_STATUS
  | BULK_READ_NEW
  | BULK_REMOVE_NEW
  | other (code : Nat)
deriving DecidableEq, Repr

/-- Embedding of dnet_cmd_needs_backend (pool.c lines 241 to 258): the switch
returns 0 for the ten listed opcodes and 1 for everything else. -/
def dnet_cmd_needs_backend (command : DnetCommand) : Nat :=
  match command with
  | .AUTH => 0
  | .STATUS => 0
  | .REVERSE_LOOKUP => 0
  | .JOIN => 0
  | .ROUTE_LIST => 0
  | .MONITOR_STAT => 0
  | .BACKEND_CONTROL => 0
  | .BACKEND_STATUS => 0
  | .BULK_READ_NEW => 0
  | .BULK_REMOVE_NEW => 0
  | .other _ => 1

/-! Work pools and the admission check (claim C1). -/

/-- Embedding of struct dnet_work_pool: only the fields the admission path
reads.  The field queue_size stands for the value dnet_get_pool_queue_size
returns for the pool (request_queue.c is outside the given sources; the spec
describes it as the size of the request queue of the pool). -/
structure DnetWorkPool where
  num : Nat
  queue_size : Nat
deriving DecidableEq, Repr

/-- Embedding of struct dnet_work_pool_place: the pool pointer may be NULL,
hence an Option. -/
structure DnetWorkPoolPlace where
  pool : Option DnetWorkPool
deriving DecidableEq, Repr

/-- Embedding of struct dnet_io_pool with its two system places. -/
structure DnetIoPool where
  recv_pool : DnetWorkPoolPlace
  recv_pool_nb : DnetWorkPoolPlace
deriving DecidableEq, Repr

/-- Embedding of struct dnet_io as the admission path sees it: the system
pool pair plus the optional backend pools manager, modelled as the list of
all backend pool places it manages. -/
structure DnetIo where
  pool : DnetIoPool
  pools_manager : Option (List DnetWorkPoolPlace)
deriving DecidableEq, Repr

/-- Embedding of dnet_check_work_pool_place (pool.c lines 857 to 871): adds
the queue size and the thread count of the pool of the place, when present,
into the two accumulators. -/
def dnet_check_work_pool_place (place : DnetWorkPoolPlace) (acc : Nat × Nat) :
    Nat × Nat :=
  match place.pool with
  | none => acc
  | some pool => (acc.1 + pool.queue_size, acc.2 + pool.num)

/-- Embedding of dnet_check_io_pool (pool.c lines 873 to 876): accumulates
over the blocking and the nonblocking system place. -/
def dnet_check_io_pool (iop : DnetIoPool) (acc : Nat × Nat) : Nat × Nat :=
  dnet_check_work_pool_place iop.recv_pool_nb
    (dnet_check_work_pool_place iop.recv_pool acc)

/-- Modelled from the spec: dnet_io_pools_check lives in the backends manager
code, which is outside the given sources.  Per spec section 4.8 it computes
the aggregate pair over every backend pool, which we model as folding the
per-place accumulation over all managed places. -/
def dnet_io_pools_check (places : List DnetWorkPoolPlace) (acc : Nat × Nat) :
    Nat × Nat :=
  places.foldl (fun a p => dnet_check_work_pool_place p a) acc

/-- Embedding of dnet_check_io (pool.c lines 878 to 892): sums queue sizes
and thread counts over the system places and, when a pools manager exists,
over its places, then returns 1 when queue_size is at most threads_count
times 1000 and 0 otherwise. -/
def dnet_check_io (dio : DnetIo) : Nat :=
  let acc := dnet_check_io_pool dio.pool (0, 0)
  let acc :=
    match dio.pools_manager with
    | some places => dnet_io_pools_check places acc
    | none => acc
  if acc.1 ≤ acc.2 * 1000 then 1 else 0

/-! Spec-side aggregate quantities for claim C1, written from the words of
the claim: the aggregate queued-request count and the aggregate worker
thread count, summed over every pool place. -/

def placeQueueSize (place : DnetWorkPoolPlace) : Nat :=
  match place.pool with
  | none => 0
  | some pool => pool.queue_size

def placeThreadCount (place : DnetWorkPoolPlace) : Nat :=
  match place.pool with
  | none => 0
  | some pool => pool.num

def allPlaces (dio : DnetIo) : List DnetWorkPoolPlace :=
  dio.pool.recv_pool :: dio.pool.recv_pool_nb ::
    (match dio.pools_manager with
     | some places => places
     | none => [])

def aggQueueSize (dio : DnetIo) : Nat :=
  ((allPlaces dio).map placeQueueSize).sum

def aggThreadCount (dio : DnetIo) : Nat :=
  ((allPlaces dio).map placeThreadCount).sum

lemma dnet_check_work_pool_place_eq (place : DnetWorkPoolPlace)
    (acc : Nat × Nat) :
    dnet_check_work_pool_place place acc =
      (acc.1 + placeQueueSize place, acc.2 + placeThreadCount place) := by
  cases h : place.pool <;>
    simp [dnet_check_work_pool_place, placeQueueSize, placeThreadCount, h]

lemma dnet_io_pools_check_eq (places : List DnetWorkPoolPlace)
    (acc : Nat × Nat) :
    dnet_io_pools_check places acc =
      (acc.1 + (places.map placeQueueSize).sum,
       acc.2 + (places.map placeThreadCount).sum) := by
  induction places generalizing acc with
  | nil => simp [dnet_io_pools_check]
  | cons p ps ih =>
      simp only [dnet_io_pools_check, List.foldl_cons] at *
      rw [ih, dnet_check_work_pool_place_eq]
      simp [List.map_cons, List.sum_cons]
      omega

lemma dnet_check_io_acc (dio : DnetIo) :
    (let acc := dnet_check_io_pool dio.pool (0, 0)
     match dio.pools_manager with
     | some places => dnet_io_pools_check places acc
     | none => acc) = (aggQueueSize dio, aggThreadCount dio) := by
  cases h : dio.pools_manager with
  | none =>
      simp [dnet_check_io_pool, dnet_check_work_pool_place_eq, aggQueueSize,
            aggThreadCount, allPlaces, h]
  | some places =>
      simp [dnet_check_io_pool, dnet_check_work_pool_place_eq,
            dnet_io_pools_check_eq, aggQueueSize, aggThreadCount, allPlaces, h]
      constructor <;> omega

/-- C1: the admission check dnet_check_io returns 1 iff the aggregate queued
request count over every pool place is at most the aggregate worker thread
count over every pool place times 1000, and returns 0 otherwise. -/
theorem dnet_check_io_grants_iff_aggregate_bound (dio : DnetIo) :
    (dnet_check_io dio = 1 ↔ aggQueueSize dio ≤ aggThreadCount dio * 1000) ∧
    (dnet_check_io dio = 0 ↔ ¬ aggQueueSize dio ≤ aggThreadCount dio * 1000) := by
  have h := dnet_check_io_acc dio
  simp only at h
  unfold dnet_check_io
  simp only [h]
  by_cases hle : aggQueueSize dio ≤ aggThreadCount dio * 1000 <;>
    simp [hle]

/-- Witness for C1 at a concrete io state: one system pool with 2 threads
and 5 queued requests, no backend pools manager. -/
theorem dnet_check_io_witness :
    (dnet_check_io
        { pool := { recv_pool := { pool := some { num := 2, queue_size := 5 } },
                    recv_pool_nb := { pool := none } },
          pools_manager := none } = 1 ↔
      aggQueueSize
        { pool := { recv_pool := { pool := some { num := 2, queue_size := 5 } },
                    recv_pool_nb := { pool := none } },
          pools_manager := none } ≤
      aggThreadCount
        { pool := { recv_pool := { pool := some { num := 2, queue_size := 5 } },
                    recv_pool_nb := { pool := none } },
          pools_manager := none } * 1000) :=
  (dnet_check_io_grants_iff_aggregate_bound
    { pool := { recv_pool := { pool := some { num := 2, queue_size := 5 } },
                recv_pool_nb := { pool := none } },
      pools_manager := none }).1

/-! Claim C2: backend id resolution in dnet_schedule_io. -/

/-- Embedding of the backend-resolution fragment of dnet_schedule_io
(pool.c lines 334 and 364 to 368): backend_id starts at -1, is overwritten
by the header backend id when DNET_FLAGS_DIRECT_BACKEND is set, and
otherwise by the routing lookup when the command needs a backend.  The
argument search_result stands for the value of dnet_state_search_backend,
whose implementation is outside the dispatcher per the spec. -/
def dnet_schedule_io_backend_id (flags : DnetFlags) (cmd_backend_id : Int)
    (command : DnetCommand) (search_result : Int) : Int :=
  if flags.direct_backend then cmd_backend_id
  else if dnet_cmd_needs_backend command ≠ 0 then search_result
  else -1

/-- Spec-side backendless opcode set, written from the words of claim C2. -/
def backendlessSet : List DnetCommand :=
  [.AUTH, .STATUS, .REVERSE_LOOKUP, .JOIN, .ROUTE_LIST, .MONITOR_STAT,
   .BACKEND_CONTROL, .BACKEND_STATUS, .BULK_READ_NEW, .BULK_REMOVE_NEW]

/-- Spec-side resolver, written from the words of claim C2: direct flag
takes the header field, backendless opcodes take -1, everything else takes
the routing lookup. -/
def specResolveBackend (direct : Bool) (hdr_backend_id : Int)
    (command : DnetCommand) (lookup : Int) : Int :=
  if direct then hdr_backend_id
  else if command ∈ backendlessSet then -1
  else lookup

/-- C2: the dispatcher resolves the backend id exactly as the spec states:
header field under DIRECT_BACKEND, -1 for the ten backendless opcodes,
routing lookup otherwise. -/
theorem dnet_schedule_io_backend_resolution (flags : DnetFlags)
    (cmd_backend_id : Int) (command : DnetCommand) (search_result : Int) :
    dnet_schedule_io_backend_id flags cmd_backend_id command search_result =
      specResolveBackend flags.direct_backend cmd_backend_id command
        search_result := by
  cases command <;>
    simp [dnet_schedule_io_backend_id, specResolveBackend,
          dnet_cmd_needs_backend, backendlessSet]

/-- Witness for C2 at a concrete input: no direct flag, opcode AUTH,
routing lookup result 7. -/
theorem dnet_schedule_io_backend_resolution_witness :
    dnet_schedule_io_backend_id
      { reply := false, more := false, destroy := false, nolock := false,
        direct_backend := false, trace_bit := false } 5 .AUTH 7 =
    specResolveBackend false 5 .AUTH 7 :=
  dnet_schedule_io_backend_resolution
    { reply := false, more := false, destroy := false, nolock := false,
      direct_backend := false, trace_bit := false } 5 .AUTH 7

/-! Claim C3: per-event gating in the reactor loop. -/

/-- Relevant bits of one epoll event for the reactor loop. -/
structure NetEvent where
  epollin : Bool
  epollout : Bool
  epollhuperr : Bool
deriving DecidableEq, Repr

/-- Which handlers ran while processing one epoll event. -/
structure EventActions where
  acceptRan : Bool
  recvRan : Bool
  sendRan : Bool
deriving DecidableEq, Repr

/-- Embedding of dnet_state_net_process (pool.c lines 833 to 855).  The
kernel-facing receive and send routines are replaced by their result codes,
passed as oracles.  Returns the final err value together with flags telling
whether the receive and the send handler were invoked. -/
def dnet_state_net_process (ev : NetEvent) (recv_result send_result : Int) :
    Int × Bool × Bool :=
  if ev.epollin ∧ (recv_result ≠ 0 ∧ recv_result ≠ -EAGAIN) then
    (recv_result, true, false)
  else if ev.epollout ∧ (send_result ≠ 0 ∧ send_result ≠ -EAGAIN) then
    (send_result, ev.epollin, true)
  else if ev.epollhuperr then
    (-ECONNRESET, ev.epollin, ev.epollout)
  else if ev.epollout then (send_result, ev.epollin, true)
  else if ev.epollin then (recv_result, true, false)
  else (-ECONNRESET, false, false)

/-- Embedding of the per-event dispatch in dnet_io_process_network (pool.c
lines 971 to 986): an accept-socket event goes to dnet_state_accept_process;
any other event is handed to dnet_state_net_process only when it carries
EPOLLOUT or when dnet_check_io grants admission; otherwise the event is
skipped.  Result codes of the three handlers are passed as oracles. -/
def dnet_io_process_one_event (isAccept : Bool) (ev : NetEvent) (dio : DnetIo)
    (accept_result recv_result send_result : Int) : Int × EventActions :=
  if isAccept then
    (accept_result, { acceptRan := true, recvRan := false, sendRan := false })
  else if ev.epollout || dnet_check_io dio ≠ 0 then
    let r := dnet_state_net_process ev recv_result send_result
    (r.1, { acceptRan := false, recvRan := r.2.1, sendRan := r.2.2 })
  else
    (0, { acceptRan := false, recvRan := false, sendRan := false })

/-- C3: for every processed epoll event, the receive handler runs only if
the event is an accept event, carries EPOLLOUT, or the admission check
grants; and a send-only event (EPOLLOUT without EPOLLIN, not an accept
event) is always serviced. -/
theorem reactor_recv_gated_by_admission_send_always (isAccept : Bool)
    (ev : NetEvent) (dio : DnetIo) (accept_result recv_result send_result : Int) :
    ((dnet_io_process_one_event isAccept ev dio accept_result recv_result
        send_result).2.recvRan = true →
      isAccept = true ∨ ev.epollout = true ∨ dnet_check_io dio = 1) ∧
    (isAccept = false → ev.epollout = true → ev.epollin = false →
      (dnet_io_process_one_event isAccept ev dio accept_result recv_result
        send_result).2.sendRan = true) := by
  have hio : dnet_check_io dio = 0 ∨ dnet_check_io dio = 1 := by
    unfold dnet_check_io
    dsimp only
    split <;> simp
  constructor
  · intro hrecv
    by_cases ha : isAccept
    · exact Or.inl (by simpa using ha)
    · by_cases hout : ev.epollout
      · exact Or.inr (Or.inl (by simpa using hout))
      · right; right
        rcases hio with h0 | h1
        · exfalso
          simp [dnet_io_process_one_event, ha, hout, h0] at hrecv
        · exact h1
  · intro ha hout hin
    rcases hio with h0 | h0
    all_goals
      simp [dnet_io_process_one_event, dnet_state_net_process, ha, hout, hin, h0]
      split_ifs <;> rfl

/-- Witness for C3 at concrete inputs: a receive that ran under granted
admission yields the disjunction, and a send-only event is serviced even
when admission is denied. -/
theorem reactor_recv_gated_witness :
    (false = true ∨ false = true ∨
      dnet_check_io { pool := { recv_pool := { pool := none },
                                recv_pool_nb := { pool := none } },
                      pools_manager := none } = 1) ∧
    (dnet_io_process_one_event false
        { epollin := false, epollout := true, epollhuperr := false }
        { pool := { recv_pool := { pool := some { num := 0, queue_size := 5 } },
                    recv_pool_nb := { pool := none } },
          pools_manager := none } 0 0 0).2.sendRan = true := by
  constructor
  · exact (reactor_recv_gated_by_admission_send_always false
      { epollin := true, epollout := false, epollhuperr := false }
      { pool := { recv_pool := { pool := none },
                  recv_pool_nb := { pool := none } },
        pools_manager := none } 0 0 0).1 (by decide)
  · exact (reactor_recv_gated_by_admission_send_always false
      { epollin := false, epollout := true, epollhuperr := false }
      { pool := { recv_pool := { pool := some { num := 0, queue_size := 5 } },
                  recv_pool_nb := { pool := none } },
        pools_manager := none } 0 0 0).2 rfl rfl rfl

/-! Claim C8: recoverable accept errors. -/

/-- Outcome of the error path of dnet_state_accept_process. -/
inductive AcceptOutcome where
  | retry (err : Int)
  | fatalExit (err : Int)
deriving DecidableEq, Repr

/-- Embedding of the accept-failure branch of dnet_state_accept_process
(pool.c lines 624 to 643): err is the negated errno; EAGAIN and EWOULDBLOCK
return as they are; ECONNABORTED, EMFILE, ENOBUFS and ENOMEM are turned
into -EAGAIN and returned; every other errno makes the process exit. -/
def dnet_state_accept_process_error (errno : Int) : AcceptOutcome :=
  let err := -errno
  if err = -EAGAIN ∨ err = -EWOULDBLOCK then .retry err
  else if err = -ECONNABORTED ∨ err = -EMFILE ∨ err = -ENOBUFS ∨
          err = -ENOMEM then .retry (-EAGAIN)
  else .fatalExit err

/-- C8: ECONNABORTED, EMFILE, ENOBUFS and ENOMEM from accept return -EAGAIN
without tearing the listener down, and EAGAIN and EWOULDBLOCK likewise
return without escalation. -/
theorem accept_recoverable_errors_return_eagain :
    dnet_state_accept_process_error ECONNABORTED = .retry (-EAGAIN) ∧
    dnet_state_accept_process_error EMFILE = .retry (-EAGAIN) ∧
    dnet_state_accept_process_error ENOBUFS = .retry (-EAGAIN) ∧
    dnet_state_accept_process_error ENOMEM = .retry (-EAGAIN) ∧
    dnet_state_accept_process_error EAGAIN = .retry (-EAGAIN) ∧
    dnet_state_accept_process_error EWOULDBLOCK = .retry (-EWOULDBLOCK) := by
  decide

/-! Claims C6 and C7: the send loop dnet_process_send_single. -/

/-- Embedding of the queue accounting done after a frame is fully written
and dequeued (pool.c lines 734 to 741): when the counter is positive it is
decremented (atomic_dec returns the decremented value; atomic.h is outside
the given sources, its contract is taken from the spec wording, namely that
the comparison sees the count after decrement), and the send condition is
broadcast exactly when the decremented value equals the low watermark.
Returns the new counter value and whether the broadcast fired. -/
def send_dequeue_account (queue_size low_watermark : Nat) : Nat × Bool :=
  if 0 < queue_size then
    let q := queue_size - 1
    (q, q = low_watermark)
  else (queue_size, false)

/-- C6: the broadcast fires exactly when the unit decrement crosses the low
watermark, that is, the count was above the watermark before and is at or
below it after; the first component is always the post-decrement count. -/
theorem send_low_watermark_broadcast_iff_crossing (queue_size low_watermark : Nat) :
    (send_dequeue_account queue_size low_watermark).1 = queue_size - 1 ∧
    ((send_dequeue_account queue_size low_watermark).2 = true ↔
      low_watermark < queue_size ∧ queue_size - 1 ≤ low_watermark) := by
  unfold send_dequeue_account
  split <;> simp <;> omega

/-- Witness for C6 at a concrete count: a queue of 6 dropping to 5 with
low watermark 5 broadcasts. -/
theorem send_low_watermark_witness :
    (send_dequeue_account 6 5).1 = 6 - 1 ∧
    ((send_dequeue_account 6 5).2 = true ↔ 5 < 6 ∧ 6 - 1 ≤ 5) :=
  send_low_watermark_broadcast_iff_crossing 6 5

/-- Connection send-side state: the ordered send queue and the counter
send_queue_size.  Frames are abstracted by an arbitrary type. -/
structure SendState (Req : Type) where
  send_list : List Req
  send_queue_size : Nat
deriving DecidableEq, Repr

/-- Reason the send loop terminated, recorded for the statements. -/
inductive SendExit where
  | emptyQueue
  | sendError (e : Int)
  | limitReached
  | outOfResults
deriving DecidableEq, Repr

/-- Embedding of the loop of dnet_process_send_single (pool.c lines 700 to
765).  The kernel-facing write of one frame is replaced by an oracle list of
result codes, one per attempt (0 means the frame was fully written).  On
success the head frame is dequeued, the queue counter is decremented with
the low-watermark broadcast, and the loop breaks once send_limit (when
nonzero) successes have happened; on failure the loop exits leaving the
frame at the head.  Returns the final state, the err value, the final value
of the success counter and the exit reason.  The outOfResults exit is a
model artifact for when the oracle list is exhausted. -/
def dnet_process_send_single {Req : Type} (send_limit low_watermark : Nat) :
    List Int → SendState Req → Nat → SendState Req × Int × Nat × SendExit
  | [], st, counter =>
    match st.send_list with
    | [] => (st, -EAGAIN, counter, .emptyQueue)
    | _ :: _ => (st, -EAGAIN, counter, .outOfResults)
  | res :: results2, st, counter =>
    match st.send_list with
    | [] => (st, -EAGAIN, counter, .emptyQueue)
    | _r :: rest =>
      if res = 0 then
        let acc := send_dequeue_account st.send_queue_size low_watermark
        let st2 : SendState Req :=
          { send_list := rest, send_queue_size := acc.1 }
        let counter2 := counter + 1
        if send_limit ≠ 0 ∧ send_limit ≤ counter2 then
          (st2, 0, counter2, .limitReached)
        else
          dnet_process_send_single send_limit low_watermark results2 st2 counter2
      else (st, res, counter, .sendError res)

lemma dnet_process_send_single_inv {Req : Type} (send_limit low_watermark : Nat)
    (results : List Int) (st : SendState Req) (counter : Nat) :
    let r := dnet_process_send_single send_limit low_watermark results st counter
    counter ≤ r.2.2.1 ∧
    (send_limit ≠ 0 → counter < send_limit → r.2.2.1 ≤ send_limit) ∧
    r.1.send_list = st.send_list.drop (r.2.2.1 - counter) ∧
    (∀ e, r.2.2.2 = .sendError e → r.1.send_list ≠ []) := by
  induction results generalizing st counter with
  | nil =>
      dsimp only
      cases h : st.send_list <;> simp [dnet_process_send_single, h] <;> omega
  | cons res results2 ih =>
      dsimp only
      cases h : st.send_list with
      | nil => simp [dnet_process_send_single, h]; omega
      | cons r0 rest =>
        by_cases hres : res = 0
        · by_cases hlim : send_limit ≠ 0 ∧ send_limit ≤ counter + 1
          · simp only [dnet_process_send_single, h, if_pos hres, if_pos hlim]
            refine ⟨by omega, by omega, by simp [h], by simp⟩
          · simp only [dnet_process_send_single, h, if_pos hres, if_neg hlim]
            have hstep := ih
              { send_list := rest,
                send_queue_size :=
                  (send_dequeue_account st.send_queue_size low_watermark).1 }
              (counter + 1)
            dsimp only at hstep
            obtain ⟨h1, h2, h3, h4⟩ := hstep
            refine ⟨by omega, ?_, ?_, h4⟩
            · intro hs hc
              refine h2 hs ?_
              rcases Nat.lt_or_ge (counter + 1) send_limit with hlt | hge
              · exact hlt
              · exact absurd ⟨hs, hge⟩ hlim
            · rw [h3]
              rw [show
                (dnet_process_send_single send_limit low_watermark results2
                  { send_list := rest,
                    send_queue_size :=
                      (send_dequeue_account st.send_queue_size low_watermark).1 }
                  (counter + 1)).2.2.1 - counter =
                ((dnet_process_send_single send_limit low_watermark results2
                  { send_list := rest,
                    send_queue_size :=
                      (send_dequeue_account st.send_queue_size low_watermark).1 }
                  (counter + 1)).2.2.1 - (counter + 1)) + 1 from by omega]
              rw [List.drop_succ_cons]
        · simp only [dnet_process_send_single, h, if_neg hres]
          refine ⟨le_refl _, by omega, by simp [h], fun e _ => by simp [h]⟩

/-- C7: with a nonzero send_limit, one invocation of the send loop writes,
dequeues and frees at most send_limit frames; the frames are removed from
the head in order, so the final queue is the drop of the initial queue by
the success count; and when the loop exits because a frame failed, that
frame is still at the head of the queue (in particular the queue is then
nonempty). -/
theorem send_loop_limit_cap_and_eagain_head {Req : Type}
    (send_limit low_watermark : Nat) (results : List Int) (st : SendState Req)
    (hlim : send_limit ≠ 0) :
    (dnet_process_send_single send_limit low_watermark results st 0).2.2.1 ≤
      send_limit ∧
    (dnet_process_send_single send_limit low_watermark results st 0).1.send_list =
      st.send_list.drop
        (dnet_process_send_single send_limit low_watermark results st 0).2.2.1 ∧
    (∀ e, (dnet_process_send_single send_limit low_watermark results st
        0).2.2.2 = .sendError e →
      (dnet_process_send_single send_limit low_watermark results st
        0).1.send_list ≠ []) := by
  have h := dnet_process_send_single_inv send_limit low_watermark results st 0
  simp only at h
  obtain ⟨h1, h2, h3, h4⟩ := h
  exact ⟨h2 hlim (Nat.pos_of_ne_zero hlim), by simpa using h3, h4⟩

/-- Witness for C7: limit 1, two frames, first write succeeds then the
second fails with EAGAIN; the loop stops after one frame. -/
theorem send_loop_limit_cap_witness :
    (dnet_process_send_single 1 0 [0, -11]
      ({ send_list := [7, 8, 9], send_queue_size := 3 } : SendState Nat)
      0).2.2.1 ≤ 1 ∧
    (dnet_process_send_single 1 0 [0, -11]
      ({ send_list := [7, 8, 9], send_queue_size := 3 } : SendState Nat)
      0).1.send_list =
      ([7, 8, 9] : List Nat).drop
        (dnet_process_send_single 1 0 [0, -11]
          ({ send_list := [7, 8, 9], send_queue_size := 3 } : SendState Nat)
          0).2.2.1 := by
  have h := send_loop_limit_cap_and_eagain_head 1 0 [0, -11]
    ({ send_list := [7, 8, 9], send_queue_size := 3 } : SendState Nat)
    (by decide)
  exact ⟨h.1, h.2.1⟩

/-! Claim C5: dnet_work_pool_grow. -/

/-- Embedding of struct dnet_work_io for the grow path: the creation order
index, the thread identity produced by pthread_create, and the joined
flag. -/
structure DnetWorkIoEntry where
  thread_index : Nat
  tid : Nat
  joined : Bool
deriving DecidableEq, Repr

/-- Embedding of the worker-list part of struct dnet_work_pool. -/
structure GrowPool where
  num : Nat
  wio_list : List DnetWorkIoEntry
deriving DecidableEq, Repr

/-- Embedding of the success path of dnet_work_pool_grow (pool.c lines 115
to 165): a fresh wio_list array of exactly num entries is allocated into
pool.wio_list (replacing the previous pointer), each entry gets thread index
i and a freshly created thread (modelled by the oracle newTid), the log line
announces the transition pool.num to pool.num + num, and then pool.num is
assigned num.  Returns the new pool together with the logged pair. -/
def dnet_work_pool_grow (pool : GrowPool) (num : Nat) (newTid : Nat → Nat) :
    GrowPool × (Nat × Nat) :=
  let fresh := (List.range num).map
    (fun i => { thread_index := i, tid := newTid i, joined := false })
  let logged := (pool.num, pool.num + num)
  ({ num := num, wio_list := fresh }, logged)

/-- C5 is a code bug: growing a pool that already has 3 workers by 2 logs
the transition 3 to 5 but leaves the pool with num = 2, and the previously
created workers (tids 100, 101, 102) are no longer in the worker list. -/
theorem work_pool_grow_discards_workers_bug :
    (dnet_work_pool_grow
      { num := 3,
        wio_list := [{ thread_index := 0, tid := 100, joined := false },
                     { thread_index := 1, tid := 101, joined := false },
                     { thread_index := 2, tid := 102, joined := false }] }
      2 (fun i => 200 + i)).2 = (3, 5) ∧
    (dnet_work_pool_grow
      { num := 3,
        wio_list := [{ thread_index := 0, tid := 100, joined := false },
                     { thread_index := 1, tid := 101, joined := false },
                     { thread_index := 2, tid := 102, joined := false }] }
      2 (fun i => 200 + i)).1.num = 2 ∧
    ¬ (∃ w ∈ (dnet_work_pool_grow
      { num := 3,
        wio_list := [{ thread_index := 0, tid := 100, joined := false },
                     { thread_index := 1, tid := 101, joined := false },
                     { thread_index := 2, tid := 102, joined := false }] }
      2 (fun i => 200 + i)).1.wio_list, w.tid = 100) := by
  decide

/-! Claim C9: dnet_work_pool_stop idempotence. -/

/-- Worker as seen by the stop path: the joined flag from struct
dnet_work_io plus a ghost counter of how many pthread_join calls were
performed on this worker. -/
structure StopWorker where
  joined : Bool
  joinCount : Nat
deriving DecidableEq, Repr

/-- Embedding of the per-worker body of dnet_work_pool_stop (pool.c lines 58
to 73): a worker not yet joined is joined (ghost counter bumped) and marked;
a worker already marked joined is skipped. -/
def join_worker (w : StopWorker) : StopWorker :=
  if w.joined then w
  else { joined := true, joinCount := w.joinCount + 1 }

/-- Embedding of dnet_work_pool_stop: the loop applies the join-once body to
every worker of the pool. -/
def dnet_work_pool_stop (ws : List StopWorker) : List StopWorker :=
  ws.map join_worker

lemma join_worker_idem (w : StopWorker) :
    join_worker (join_worker w) = join_worker w := by
  unfold join_worker
  split <;> simp

lemma dnet_work_pool_stop_stop (ws : List StopWorker) :
    dnet_work_pool_stop (dnet_work_pool_stop ws) = dnet_work_pool_stop ws := by
  unfold dnet_work_pool_stop
  rw [List.map_map]
  exact List.map_congr_left (fun w _ => join_worker_idem w)

lemma dnet_work_pool_stop_forall2 (ws : List StopWorker) :
    List.Forall₂
      (fun w w2 => w2.joined = true ∧
        w2.joinCount = w.joinCount + (if w.joined then 0 else 1))
      ws (dnet_work_pool_stop ws) := by
  induction ws with
  | nil => simp [dnet_work_pool_stop]
  | cons w rest ih =>
      simp only [dnet_work_pool_stop, List.map_cons] at *
      refine List.Forall₂.cons ?_ ih
      unfold join_worker
      by_cases h : w.joined <;> simp [h]

/-- C9: pool shutdown is idempotent: any positive number of invocations
equals one invocation, and one invocation joins each not-yet-joined worker
exactly once (ghost join counter bumped by one, joined flag set) while
leaving already-joined workers untouched. -/
theorem work_pool_stop_idempotent_join_once (ws : List StopWorker) (k : Nat) :
    dnet_work_pool_stop^[k + 1] ws = dnet_work_pool_stop ws ∧
    List.Forall₂
      (fun w w2 => w2.joined = true ∧
        w2.joinCount = w.joinCount + (if w.joined then 0 else 1))
      ws (dnet_work_pool_stop^[k + 1] ws) := by
  have hiter : dnet_work_pool_stop^[k + 1] ws = dnet_work_pool_stop ws := by
    induction k with
    | zero => simp
    | succ m ih =>
        rw [Function.iterate_succ_apply', ih, dnet_work_pool_stop_stop]
  exact ⟨hiter, hiter ▸ dnet_work_pool_stop_forall2 ws⟩

/-- Witness for C9 at a concrete pool: one fresh worker and one already
joined worker, two invocations. -/
theorem work_pool_stop_witness :
    dnet_work_pool_stop^[1 + 1]
      ([{ joined := false, joinCount := 0 },
        { joined := true, joinCount := 3 }] : List StopWorker) =
    dnet_work_pool_stop
      ([{ joined := false, joinCount := 0 },
        { joined := true, joinCount := 3 }] : List StopWorker) ∧
    List.Forall₂
      (fun w w2 => w2.joined = true ∧
        w2.joinCount = w.joinCount + (if w.joined then 0 else 1))
      ([{ joined := false, joinCount := 0 },
        { joined := true, joinCount := 3 }] : List StopWorker)
      (dnet_work_pool_stop^[1 + 1]
        ([{ joined := false, joinCount := 0 },
          { joined := true, joinCount := 3 }] : List StopWorker)) :=
  work_pool_stop_idempotent_join_once
    [{ joined := false, joinCount := 0 }, { joined := true, joinCount := 3 }] 1

/-! Claim C4: reply demux in dnet_update_trans_timestamp_network and the
dispatch decision of dnet_schedule_io. -/

/-- Embedding of struct dnet_trans as the demux sees it: the transaction id,
its timestamp (refreshed by dnet_trans_update_timestamp) and whether the
transaction currently sits in the timer tree. -/
structure DnetTrans where
  trans : Nat
  timestamp : Nat
  inTimerTree : Bool
deriving DecidableEq, Repr

/-- Connection state as the demux sees it: the id index of the per
connection transaction registry, modelled as a list searched by id. -/
structure DnetNetState where
  trans_list : List DnetTrans
deriving DecidableEq, Repr

/-- Search of the id index by transaction id, first match wins. -/
def dnet_trans_search_list : List DnetTrans → Nat → Option DnetTrans
  | [], _ => none
  | t :: r, tid => if t.trans = tid then some t else dnet_trans_search_list r tid

/-- Modelled from the spec: dnet_trans_search lives in trans.c, outside the
given sources; per spec section 4.7 it looks a transaction up by id in the
id index of the connection. -/
def dnet_trans_search (st : DnetNetState) (tid : Nat) : Option DnetTrans :=
  dnet_trans_search_list st.trans_list tid

/-- Embedding of dnet_update_trans_timestamp_network (pool.c lines 302 to
326): when the header carries DNET_FLAGS_REPLY, the transaction is looked up
by id; when found its timestamp is refreshed and it is removed from the
timer tree only (it stays in the id index); when not found nothing changes.
The helpers dnet_trans_update_timestamp and dnet_trans_remove_timer_nolock
live in trans.c outside the given sources and are modelled from spec
section 4.7 as the timestamp refresh and the timer-index removal. -/
def dnet_update_trans_timestamp_network (st : DnetNetState) (flags : DnetFlags)
    (tid now : Nat) : DnetNetState :=
  if flags.reply then
    match dnet_trans_search st tid with
    | some _ =>
      { trans_list := st.trans_list.map
          (fun u => if u.trans = tid then
            { u with timestamp := now, inTimerTree := false } else u) }
    | none => st
  else st

/-- Embedding of the demux-and-dispatch skeleton of dnet_schedule_io (pool.c
lines 328 to 401): the timestamp update runs first, and then the request is
pushed into the selected work pool via dnet_push_request on every path (the
only early return sits on a refactoring error path that cannot trigger for
the old-protocol requests modelled here, see the TODO at line 380).  The
Boolean result records whether the request was dispatched to a pool. -/
def dnet_schedule_io (st : DnetNetState) (flags : DnetFlags) (tid now : Nat) :
    DnetNetState × Bool :=
  (dnet_update_trans_timestamp_network st flags tid now, true)

/-- Counterexample to C4 as stated: a reply frame whose transaction id 42 is
unknown to the connection (the registry is empty) is nevertheless dispatched
to a work pool by dnet_schedule_io. -/
theorem stray_reply_still_dispatched_cex :
    dnet_trans_search { trans_list := [] } 42 = none ∧
    (dnet_schedule_io { trans_list := [] }
      { reply := true, more := false, destroy := false, nolock := false,
        direct_backend := false, trace_bit := false } 42 0).2 = true := by
  decide

lemma search_map_update (l : List DnetTrans) (tid now : Nat) (t : DnetTrans)
    (h : dnet_trans_search_list l tid = some t) :
    dnet_trans_search_list
      (l.map (fun u => if u.trans = tid then
        { u with timestamp := now, inTimerTree := false } else u)) tid =
      some { t with timestamp := now, inTimerTree := false } := by
  induction l with
  | nil => simp [dnet_trans_search_list] at h
  | cons u r ih =>
      by_cases hu : u.trans = tid
      · rw [dnet_trans_search_list, if_pos hu] at h
        injection h with h
        subst h
        simp only [List.map_cons, if_pos hu]
        rw [dnet_trans_search_list, if_pos hu]
      · rw [dnet_trans_search_list, if_neg hu] at h
        simp only [List.map_cons, if_neg hu]
        rw [dnet_trans_search_list, if_neg hu]
        exact ih h

/-- C4 amended: for a frame carrying the REPLY flag, the demux of
dnet_schedule_io looks the transaction up by id; when found it refreshes the
timestamp and removes the transaction from the timer index while keeping it
in the id index; when not found the registry is left unchanged; in both
cases the frame is then dispatched to a work pool (the stray is not
discarded at this stage). -/
theorem reply_demux_amended (st : DnetNetState) (flags : DnetFlags)
    (tid now : Nat) (hr : flags.reply = true) :
    (dnet_schedule_io st flags tid now).2 = true ∧
    (dnet_trans_search st tid = none →
      (dnet_schedule_io st flags tid now).1 = st) ∧
    (∀ t, dnet_trans_search st tid = some t →
      dnet_trans_search (dnet_schedule_io st flags tid now).1 tid =
        some { t with timestamp := now, inTimerTree := false }) := by
  refine ⟨rfl, ?_, ?_⟩
  · intro hnone
    simp [dnet_schedule_io, dnet_update_trans_timestamp_network, hr, hnone]
  · intro t hsome
    simp only [dnet_schedule_io, dnet_update_trans_timestamp_network, hr,
      if_true, hsome]
    exact search_map_update st.trans_list tid now t hsome

/-- Witness for the amended C4: a registry holding transaction 42 with stale
timestamp 5 still inside the timer tree; after a reply with id 42 at time 9
the transaction is still found in the id index, refreshed and out of the
timer tree, and the frame was dispatched. -/
theorem reply_demux_amended_witness :
    (dnet_schedule_io
      { trans_list := [{ trans := 42, timestamp := 5, inTimerTree := true }] }
      { reply := true, more := false, destroy := false, nolock := false,
        direct_backend := false, trace_bit := false } 42 9).2 = true ∧
    dnet_trans_search (dnet_schedule_io
      { trans_list := [{ trans := 42, timestamp := 5, inTimerTree := true }] }
      { reply := true, more := false, destroy := false, nolock := false,
        direct_backend := false, trace_bit := false } 42 9).1 42 =
      some { trans := 42, timestamp := 9, inTimerTree := false } := by
  refine ⟨(reply_demux_amended
    { trans_list := [{ trans := 42, timestamp := 5, inTimerTree := true }] }
    { reply := true, more := false, destroy := false, nolock := false,
      direct_backend := false, trace_bit := false } 42 9 rfl).1, ?_⟩
  exact (reply_demux_amended
    { trans_list := [{ trans := 42, timestamp := 5, inTimerTree := true }] }
    { reply := true, more := false, destroy := false, nolock := false,
      direct_backend := false, trace_bit := false } 42 9 rfl).2.2
    { trans := 42, timestamp := 5, inTimerTree := true } (by decide)

/-! Claim C10: dnet_shuffle_epoll_events is a permutation. -/

/-- Value of RAND_MAX on Linux/glibc, the platform pool.c targets. -/
def RAND_MAX : Nat := 2147483647

/-- Embedding of the index computation j = i + rand() / (RAND_MAX /
(size - i) + 1) at pool.c line 902; the argument r stands for the value
rand() returned. -/
def shuffle_j (size i r : Nat) : Nat :=
  i + r / (RAND_MAX / (size - i) + 1)

/-- Embedding of the three-step exchange at pool.c lines 904 to 907:
tmp receives evs[j], evs[j] receives evs[i], evs[i] receives tmp.  When
i = j the memmove leaves the array unchanged, which the two set calls
reproduce. -/
def swap_events {α : Type} [Inhabited α] (evs : List α) (i j : Nat) : List α :=
  let tmp := evs.getD j default
  let evs1 := evs.set j (evs.getD i default)
  evs1.set i tmp

/-- Embedding of the loop of dnet_shuffle_epoll_events (pool.c lines 901 to
908): i runs from 0 while i < size - 1, swapping position i with the chosen
position j.  The fuel argument bounds the iteration count and is
instantiated with the array length, which the guard never exceeds. -/
def dnet_shuffle_loop {α : Type} [Inhabited α] (rnd : Nat → Nat) :
    Nat → List α → Nat → List α
  | 0, evs, _ => evs
  | fuel + 1, evs, i =>
    if i < evs.length - 1 then
      dnet_shuffle_loop rnd fuel
        (swap_events evs i (shuffle_j evs.length i (rnd i))) (i + 1)
    else evs

/-- Embedding of dnet_shuffle_epoll_events (pool.c lines 894 to 909): an
array of size less than 1 is returned untouched, otherwise the swap loop
runs; rnd is the oracle for the successive rand() values. -/
def dnet_shuffle_epoll_events {α : Type} [Inhabited α] (rnd : Nat → Nat)
    (evs : List α) : List α :=
  if evs.length < 1 then evs
  else dnet_shuffle_loop rnd evs.length evs 0

lemma cons_set_perm {α : Type} (t : List α) (m : Nat) (h : m < t.length)
    (a d : α) : (t.getD m d :: t.set m a).Perm (a :: t) := by
  induction t generalizing m with
  | nil => simp at h
  | cons b u ih =>
      cases m with
      | zero =>
          show (b :: a :: u).Perm (a :: b :: u)
          exact List.Perm.swap a b u
      | succ k =>
          have hk : k < u.length := by simpa using h
          show ((u.getD k d) :: b :: u.set k a).Perm (a :: b :: u)
          exact ((List.Perm.swap b (u.getD k d) (u.set k a)).trans
            ((ih k hk).cons b)).trans (List.Perm.swap a b u)

lemma set_set_perm {α : Type} (l : List α) (i j : Nat) (hi : i < l.length)
    (hj : j < l.length) (d : α) :
    ((l.set j (l.getD i d)).set i (l.getD j d)).Perm l := by
  induction l generalizing i j with
  | nil => simp at hi
  | cons c t ih =>
      cases i with
      | zero =>
          cases j with
          | zero => simp
          | succ m =>
              have hm : m < t.length := by simpa using hj
              show (t.getD m d :: t.set m c).Perm (c :: t)
              exact cons_set_perm t m hm c d
      | succ k =>
          have hk : k < t.length := by simpa using hi
          cases j with
          | zero =>
              show (t.getD k d :: t.set k c).Perm (c :: t)
              exact cons_set_perm t k hk c d
          | succ m =>
              have hm : m < t.length := by simpa using hj
              show (c :: (t.set m (t.getD k d)).set k (t.getD m d)).Perm (c :: t)
              exact (ih k m hk hm).cons c

lemma swap_events_perm {α : Type} [Inhabited α] (evs : List α) (i j : Nat)
    (hi : i < evs.length) (hj : j < evs.length) :
    (swap_events evs i j).Perm evs :=
  set_set_perm evs i j hi hj default

lemma rand_div_lt (k r : Nat) (hk : 0 < k) (hr : r ≤ RAND_MAX) :
    r / (RAND_MAX / k + 1) < k := by
  have hm : RAND_MAX % k < k := Nat.mod_lt _ hk
  have h1 : RAND_MAX < k * (RAND_MAX / k + 1) := by
    calc RAND_MAX = k * (RAND_MAX / k) + RAND_MAX % k :=
          (Nat.div_add_mod _ _).symm
      _ < k * (RAND_MAX / k) + k := Nat.add_lt_add_left hm _
      _ = k * (RAND_MAX / k + 1) := by rw [Nat.mul_succ]
  have h2 : r / (RAND_MAX / k + 1) ≤ RAND_MAX / (RAND_MAX / k + 1) :=
    Nat.div_le_div_right hr
  have h3 : RAND_MAX / (RAND_MAX / k + 1) < k :=
    (Nat.div_lt_iff_lt_mul (Nat.succ_pos _)).mpr h1
  exact lt_of_le_of_lt h2 h3

lemma shuffle_j_lt (size i r : Nat) (hi : i < size - 1) (hr : r ≤ RAND_MAX) :
    shuffle_j size i r < size := by
  have hk : 0 < size - i := by omega
  have h := rand_div_lt (size - i) r hk hr
  unfold shuffle_j
  calc i + r / (RAND_MAX / (size - i) + 1) < i + (size - i) :=
        Nat.add_lt_add_left h i
    _ = size := by omega

lemma dnet_shuffle_loop_perm {α : Type} [Inhabited α] (rnd : Nat → Nat)
    (hr : ∀ m, rnd m ≤ RAND_MAX) (fuel : Nat) :
    ∀ (evs : List α) (i : Nat), (dnet_shuffle_loop rnd fuel evs i).Perm evs := by
  induction fuel with
  | zero => intro evs i; exact List.Perm.refl _
  | succ f ih =>
      intro evs i
      rw [dnet_shuffle_loop]
      by_cases hcond : i < evs.length - 1
      · rw [if_pos hcond]
        have hi : i < evs.length := by omega
        have hj : shuffle_j evs.length i (rnd i) < evs.length :=
          shuffle_j_lt _ _ _ hcond (hr i)
        exact (ih _ _).trans (swap_events_perm evs i _ hi hj)
      · rw [if_neg hcond]

/-- C10: for every event array and every random source bounded by RAND_MAX,
the shuffle produces a permutation of its input (same multiset, nothing lost
or duplicated), and an array of size less than 1 is left unchanged. -/
theorem shuffle_epoll_events_perm {α : Type} [Inhabited α] (rnd : Nat → Nat)
    (evs : List α) (hr : ∀ m, rnd m ≤ RAND_MAX) :
    (dnet_shuffle_epoll_events rnd evs).Perm evs ∧
    (evs.length < 1 → dnet_shuffle_epoll_events rnd evs = evs) := by
  constructor
  · unfold dnet_shuffle_epoll_events
    split
    · exact List.Perm.refl _
    · exact dnet_shuffle_loop_perm rnd hr evs.length evs 0
  · intro h
    unfold dnet_shuffle_epoll_events
    rw [if_pos h]

/-- Witness for C10: a concrete three-element array with the zero random
source is permuted, and the empty array is returned unchanged. -/
theorem shuffle_epoll_events_perm_witness :
    (dnet_shuffle_epoll_events (fun _ => 0) ([10, 20, 30] : List Nat)).Perm
      [10, 20, 30] ∧
    dnet_shuffle_epoll_events (fun _ => 0) ([] : List Nat) = [] := by
  constructor
  · exact (shuffle_epoll_events_perm (fun _ => 0) [10, 20, 30]
      (fun _ => Nat.zero_le _)).1
  · exact (shuffle_epoll_events_perm (fun _ => 0) ([] : List Nat)
      (fun _ => Nat.zero_le _)).2 (by decide)

end Elliptics
